import Mathlib

/-
Verification development for the wikkid versioned file store.

The repository exposes two interchangeable file-store backends:
a Bazaar working-tree backend (src/wikkid/filestore/bzr.py) and a
content-addressed git backend built on dulwich (src/wikkid/filestore/git.py).
This file shallowly embeds both backends and settles the claims about
get_file, update_file and list_directory.

Conventions of the embedding:
  - Python strings become Lean String, line lists become List String.
  - Revisions of the bzr backend are Nat; object ids of the git backend are
    the injective serialisation of the object (content addressing).
  - Python exceptions become explicit error values.  Exceptions that are not
    part of the wikkid error taxonomy (IndexError, NoSuchRevision, KeyError
    escaping from dulwich, reading the lines of a directory) are collapsed
    into the internalError constructor; only their presence, never their
    payload, is relied on by a theorem.
-/

/-- Errors surfaced by the file stores, from src/wikkid/errors.py.
fileExists and updateConflicts model the two wikkid exception classes;
internalError stands for any other propagating Python exception. -/
inductive StoreError where
  | fileExists (msg : String)
  | updateConflicts (content : String) (basisRev : Nat)
  | internalError (msg : String)
deriving Repr, DecidableEq

/-- Worker for pySplitlines, walking the character list with an accumulator
for the current (reversed) line. -/
def splitlinesGo : List Char → List Char → List String
  | [], acc => if acc.isEmpty then [] else [String.mk acc.reverse]
  | '\r' :: '\n' :: rest, acc => String.mk acc.reverse :: splitlinesGo rest []
  | '\r' :: rest, acc => String.mk acc.reverse :: splitlinesGo rest []
  | '\n' :: rest, acc => String.mk acc.reverse :: splitlinesGo rest []
  | c :: rest, acc => splitlinesGo rest (c :: acc)

/-- Python str.splitlines restricted to the terminators occurring in this
code base (LF, CR, CRLF): the terminators are removed. -/
def pySplitlines (s : String) : List String :=
  splitlinesGo s.toList []

/-- Suffix test on strings by structural recursion over the character
lists. -/
def strEndsWith (s suffix : String) : Bool :=
  suffix.data.reverse.isPrefixOf s.data.reverse

/-- Worker for splitOnChar. -/
def splitOnCharGo (sep : Char) : List Char → List Char → List (List Char)
  | [], acc => [acc.reverse]
  | c :: rest, acc =>
    if c = sep then acc.reverse :: splitOnCharGo sep rest []
    else splitOnCharGo sep rest (c :: acc)

/-- Python str.split with a one character separator (also the behaviour
of splitting a path on the slash). -/
def splitOnChar (sep : Char) (s : String) : List String :=
  (splitOnCharGo sep s.data []).map String.mk

/-- Python sep.join. -/
def joinSep (sep : String) : List String → String
  | [] => ""
  | [x] => x
  | x :: rest => x ++ sep ++ joinSep sep rest

/-- normalize_line_endings from src/wikkid/filestore/bzr.py line 24:
ending.join(content.splitlines()). -/
def normalizeLineEndings (content : String) (ending : String) : String :=
  joinSep ending (pySplitlines content)

/-- bzrlib osutils.split_lines: split on LF keeping the terminators, a
trailing fragment without terminator is kept as a final line. -/
def splitLinesKeep (s : String) : List String :=
  let parts := splitOnChar '\n' s
  let last := parts.getLastD ""
  parts.dropLast.map (fun l => l ++ "\n") ++ (if last = "" then [] else [last])

/-- get_line_ending from src/wikkid/filestore/bzr.py line 28: inspect the
first line; none models the IndexError Python raises on an empty list. -/
def getLineEnding (lines : List String) : Option String :=
  match lines with
  | [] => none
  | first :: _ => some (if strEndsWith first "\r\n" then "\r\n" else "\n")

/-- A region of three-way merge output: plain text taken from one side, or
a conflict carrying the incoming hunk and the local hunk. -/
inductive MergeRegion where
  | text (lines : List String)
  | conflict (incoming localSide : List String)
deriving Repr, DecidableEq

/-- True exactly on conflict regions. -/
def MergeRegion.isConflict : MergeRegion → Bool
  | .conflict _ _ => true
  | _ => false

/-- Modelled from the spec: the Merge Engine (bzrlib Merge3) is not part of
this repository, only called from src/wikkid/filestore/bzr.py line 149.
Longest common subsequence of two line lists as matched index pairs. -/
def lcsPairsGo : Nat → List String → List String → List (Nat × Nat)
  | _, [], _ => []
  | _, _ :: _, [] => []
  | 0, _ :: _, _ :: _ => []
  | fuel + 1, x :: xs, y :: ys =>
    if x = y then
      (0, 0) :: (lcsPairsGo fuel xs ys).map (fun p => (p.1 + 1, p.2 + 1))
    else
      let l := (lcsPairsGo fuel xs (y :: ys)).map (fun p => (p.1 + 1, p.2))
      let r := (lcsPairsGo fuel (x :: xs) ys).map (fun p => (p.1, p.2 + 1))
      if r.length > l.length then r else l

/-- Modelled from the spec: the pair matching with enough fuel for every
recursive branch, each of which shortens the combined input. -/
def lcsPairs (a b : List String) : List (Nat × Nat) :=
  lcsPairsGo (a.length + b.length) a b

/-- Modelled from the spec: synchronisation points of a three-way merge,
base positions matched against both other sides, as index triples
(base, incoming, local). -/
def syncTriples (base a b : List String) : List (Nat × Nat × Nat) :=
  let pa := lcsPairs base a
  let pb := lcsPairs base b
  pa.filterMap (fun p =>
    match pb.find? (fun q => q.1 == p.1) with
    | some q => some (p.1, p.2, q.2)
    | none => none)

/-- Modelled from the spec, section 4.5: classification of one non-sync
hunk (base, incoming, local): an unchanged side yields the other side,
identical changes are taken once, diverging changes conflict. -/
def classifyChunk (bC aC cC : List String) : List MergeRegion :=
  if aC = bC then (if cC.isEmpty then [] else [.text cC])
  else if cC = bC then (if aC.isEmpty then [] else [.text aC])
  else if aC = cC then [.text aC]
  else [.conflict aC cC]

/-- The sublist of l from index i (inclusive) to index j (exclusive). -/
def sliceBetween (l : List String) (i j : Nat) : List String :=
  (l.drop i).take (j - i)

/-- Modelled from the spec: walk the synchronisation triples, classifying
the hunks between them and copying the synchronised lines. -/
def diff3Go (base a b : List String) :
    List (Nat × Nat × Nat) → Nat → Nat → Nat → List MergeRegion
  | [], i, j, k =>
      classifyChunk (base.drop i) (a.drop j) (b.drop k)
  | (bi, ai, ci) :: rest, i, j, k =>
      classifyChunk (sliceBetween base i bi) (sliceBetween a j ai)
          (sliceBetween b k ci)
        ++ (MergeRegion.text ((base.drop bi).take 1)
            :: diff3Go base a b rest (bi + 1) (ai + 1) (ci + 1))

/-- Modelled from the spec, section 4.5: diff3-style three-way line merge
of (basis, incoming, local) into a region list. -/
def diff3 (base a b : List String) : List MergeRegion :=
  diff3Go base a b (syncTriples base a b) 0 0 0

/-- Modelled from the spec: render merge regions to output lines; a
conflict region is delimited by the standard markers and contains the
incoming hunk first, then the local hunk, as bzrlib merge_lines does with
Merge3(basis, incoming, local). -/
def renderRegions (nl : String) : List MergeRegion → List String
  | [] => []
  | .text ls :: rest => ls ++ renderRegions nl rest
  | .conflict inc loc :: rest =>
      ("<<<<<<<" ++ nl) ::
        (inc ++ ("=======" ++ nl) ::
          (loc ++ ((">>>>>>>" ++ nl) :: renderRegions nl rest)))

/-- A node of the bzr working tree: a versioned regular file with its
content and the revision it was last modified in, or a versioned
directory with the revision it was created in. -/
inductive BzrNode where
  | file (content : String) (lastRev : Nat)
  | dir (lastRev : Nat)
deriving Repr, DecidableEq

/-- State of the bzr backend: the working tree (path to node), the
committed snapshots (revision to the file contents at that revision,
used by repository.revision_tree), and the head revision. -/
structure BzrStore where
  tree : List (String × BzrNode)
  snapshots : List (Nat × List (String × String))
  headRev : Nat
deriving Repr, DecidableEq

/-- working_tree.path2id followed by reading the node. -/
def lookupNode (t : List (String × BzrNode)) (p : String) : Option BzrNode :=
  (t.find? (fun e => e.fst == p)).map Prod.snd

/-- The read-only File projection of the bzr backend
(src/wikkid/filestore/bzr.py class File): directories carry no content. -/
structure BzrFile where
  path : String
  isDir : Bool
  lastModifiedInRevision : Nat
  content : Option String
deriving Repr, DecidableEq

/-- FileStore.get_file of the bzr backend, src/wikkid/filestore/bzr.py
line 46: path2id, then a File for the found id. -/
def bzrGetFile (s : BzrStore) (p : String) : Option BzrFile :=
  match lookupNode s.tree p with
  | none => none
  | some (.file c r) => some ⟨p, false, r, some c⟩
  | some (.dir r) => some ⟨p, true, r, none⟩

/-- bzrlib urlutils.dirname for the plain relative paths used here: drop
the last slash separated segment. -/
def dirname (p : String) : String :=
  joinSep "/" (splitOnChar '/' p).dropLast

/-- The ancestor paths checked by _ensure_directory_or_nonexistant
(src/wikkid/filestore/bzr.py line 79): the while loop collects p,
dirname p, ... and the pops process them shortest first. -/
def initPrefixes (p : String) : List String :=
  if p = "" then []
  else
    let parts := splitOnChar '/' p
    (List.range parts.length).map
      (fun i => joinSep "/" (parts.take (i + 1)))

/-- _ensure_directory_or_nonexistant: the first ancestor that exists and
is not a directory yields FileExists. -/
def ensureDirOrAbsent (s : BzrStore) (dp : String) : Option StoreError :=
  (initPrefixes dp).findSome? (fun q =>
    match lookupNode s.tree q with
    | some (.file _ _) =>
        some (.fileExists (q ++ " exists and is not a directory"))
    | _ => none)

/-- The file contents of a working tree, recorded as the snapshot of a
commit. -/
def fileContents (t : List (String × BzrNode)) : List (String × String) :=
  t.filterMap (fun e =>
    match e.snd with
    | .file c _ => some (e.fst, c)
    | .dir _ => none)

/-- Replace or add the node at path p.  Entry order is not significant to
any modelled observation. -/
def setNode (t : List (String × BzrNode)) (p : String) (n : BzrNode) :
    List (String × BzrNode) :=
  t.filter (fun e => !(e.fst == p)) ++ [(p, n)]

/-- The normalisation _add_file applies before committing
(src/wikkid/filestore/bzr.py lines 103 to 108): line endings unified to
LF and a trailing newline enforced. -/
def bzrNormalizedNewContent (content : String) : String :=
  let c1 := normalizeLineEndings content "\n"
  if strEndsWith c1 "\n" then c1 else c1 ++ "\n"

/-- FileStore._add_file, src/wikkid/filestore/bzr.py line 98: normalise,
check the ancestors, create the missing ancestor directories
(create_prefix plus smart_add), write the file, commit. -/
def bzrAddFile (s : BzrStore) (path content : String) :
    BzrStore × Option StoreError :=
  let c2 := bzrNormalizedNewContent content
  match ensureDirOrAbsent s (dirname path) with
  | some e => (s, some e)
  | none =>
    let newRev := s.headRev + 1
    let withDirs := (initPrefixes (dirname path)).foldl
      (fun t q =>
        if t.any (fun e => e.fst == q) then t else t ++ [(q, BzrNode.dir newRev)])
      s.tree
    let tree := setNode withDirs path (.file c2 newRev)
    ({ tree := tree,
       snapshots := (newRev, fileContents tree) :: s.snapshots,
       headRev := newRev }, none)

/-- Content of a file at a committed revision: revision_tree(rev) then
get_file_lines.  The two distinct failures of the source (unknown
revision, file missing from that revision) both propagate as non-wikkid
exceptions, so the model collapses them into one none. -/
def bzrBasisContent (s : BzrStore) (pr : Nat) (path : String) :
    Option String :=
  match s.snapshots.find? (fun e => e.fst == pr) with
  | none => none
  | some (_, t) => (t.find? (fun e => e.fst == path)).map Prod.snd

/-- Lines 147 to 148 of src/wikkid/filestore/bzr.py: append the ending to
the last line when it does not already end with it.  On an empty line
list the source evaluates new_lines[-1] and raises an uncaught
IndexError; none models that crash. -/
def fixLastEnding (lines : List String) (ending : String) :
    Option (List String) :=
  match lines with
  | [] => none
  | _ :: _ =>
    let last := lines.getLastD ""
    if strEndsWith last ending then some lines
    else some (lines.dropLast ++ [last ++ ending])

/-- The incoming lines prepared by _update_file lines 139 to 148: split,
renormalise to the current ending when the styles differ, enforce a
final ending.  Renormalising a content that is a single line terminator
yields the empty string, whose split is the empty list, on which the
source crashes at line 147 before any merge: that path is the none
result. -/
def bzrPreparedNewLines (content : String) (ending newEnding : String) :
    Option (List String) :=
  let base :=
    if ending = newEnding then splitLinesKeep content
    else splitLinesKeep (normalizeLineEndings content ending)
  fixLastEnding base ending

/-- The full merge output of _update_file lines 149 to 150:
Merge3(basis_lines, new_lines, current_lines).merge_lines() with basis
the content at parent_revision, incoming the prepared caller lines and
local the content at the current head. -/
def bzrMergedLines (basisContent fileContent : String)
    (newLines : List String) (ending : String) : List String :=
  renderRegions ending
    (diff3 (splitLinesKeep basisContent) newLines
      (splitLinesKeep fileContent))

/-- Write the merge result and commit with specific_files=[path]
(src/wikkid/filestore/bzr.py lines 155 to 158). -/
def bzrCommitWrite (s : BzrStore) (path newContent : String) :
    BzrStore × Option StoreError :=
  let newRev := s.headRev + 1
  let tree := setNode s.tree path (.file newContent newRev)
  ({ tree := tree,
     snapshots := (newRev, fileContents tree) :: s.snapshots,
     headRev := newRev }, none)

/-- FileStore._update_file, src/wikkid/filestore/bzr.py line 122, split
into its decision part, everything up to and including the conflict
check, all of which precedes the first write in the source: read the
basis lines, prepare the incoming lines, merge, and either the error to
raise (UpdateConflicts carries the joined merge output and the current
revision of the file when the closing marker line is present) or the
content to write. -/
def bzrUpdateDecision (s : BzrStore) (path content : String)
    (fileContent : String) (fileRev : Nat) (parentRev : Option Nat) :
    Except StoreError String :=
  match parentRev with
  | none => .error (.internalError "no parent revision")
  | some pr =>
    match bzrBasisContent s pr path with
    | none => .error (.internalError "no basis content")
    | some basisContent =>
      match getLineEnding (splitLinesKeep fileContent) with
      | none => .error (.internalError "empty current file")
      | some ending =>
        match getLineEnding (splitLinesKeep content) with
        | none => .error (.internalError "empty new content")
        | some newEnding =>
          match bzrPreparedNewLines content ending newEnding with
          | none => .error (.internalError "empty renormalised content")
          | some newLines =>
            let result :=
              bzrMergedLines basisContent fileContent newLines ending
            if (">>>>>>>" ++ ending) ∈ result then
              .error (.updateConflicts (String.join result) fileRev)
            else
              .ok (String.join result)

/-- FileStore._update_file: raise the decided error leaving the tree
untouched, or perform the write and commit. -/
def bzrUpdateExisting (s : BzrStore) (path content : String)
    (fileContent : String) (fileRev : Nat) (parentRev : Option Nat) :
    BzrStore × Option StoreError :=
  match bzrUpdateDecision s path content fileContent fileRev parentRev with
  | .error e => (s, some e)
  | .ok newContent => bzrCommitWrite s path newContent

/-- FileStore.update_file of the bzr backend, src/wikkid/filestore/bzr.py
line 54: dispatch on path2id.  Reading the lines of an existing
directory raises a non-wikkid error inside _update_file, modelled as
internalError.  Author and message do not affect the modelled state. -/
def bzrUpdateFile (s : BzrStore) (path content : String) (_author : String)
    (parentRev : Option Nat) (_msg : Option String) :
    BzrStore × Option StoreError :=
  match lookupNode s.tree path with
  | none => bzrAddFile s path content
  | some (.file fc fr) => bzrUpdateExisting s path content fc fr parentRev
  | some (.dir _) => (s, some (.internalError "cannot read a directory"))

/-- True when the path is an immediate child of the given directory (none
meaning the tree root), as listed by list_files(from_dir, recursive=False). -/
def isImmediateChild (dp : Option String) (q : String) : Bool :=
  match dp with
  | none => dirname q == "" && !(q == "")
  | some p => dirname q == p

/-- One level of listing below a directory. -/
def levelListing (s : BzrStore) (dp : Option String) : List BzrFile :=
  (s.tree.filter (fun e => isImmediateChild dp e.fst)).filterMap
    (fun e => bzrGetFile s e.fst)

/-- FileStore.list_directory of the bzr backend,
src/wikkid/filestore/bzr.py line 162: none when the path is absent or
not a directory, otherwise the one-level listing; a none path lists the
root. -/
def bzrListDirectory (s : BzrStore) (dp : Option String) :
    Option (List BzrFile) :=
  match dp with
  | some p =>
    match bzrGetFile s p with
    | none => none
    | some f => if f.isDir then some (levelListing s (some p)) else none
  | none => some (levelListing s none)

/-- A git object: blob, tree (name, mode, child id) or commit.  Commit
time stamps and the fixed committer string do not influence any claim
and are omitted; note the parents field, which update_file never
populates. -/
inductive GitObj where
  | blob (data : String)
  | tree (entries : List (String × Nat × String))
  | commit (treeId : String) (parents : List String)
      (author message : String)
deriving Repr, DecidableEq

/-- Length prefixed injective serialisation of a tree entry list. -/
def encEntries : List (String × Nat × String) → String
  | [] => ""
  | (n, m, t) :: rest =>
      toString n.length ++ ":" ++ n ++ "," ++ toString m ++ "," ++
        toString t.length ++ ":" ++ t ++ ";" ++ encEntries rest

/-- Length prefixed injective serialisation of an id list. -/
def encIds : List String → String
  | [] => ""
  | i :: rest => toString i.length ++ ":" ++ i ++ ";" ++ encIds rest

/-- Content address of a git object: a deterministic function of the
object content alone, standing in for the sha1 of the serialised object.
Computable without touching the store, exactly as Blob.from_string(c).id
is in dulwich. -/
def objId : GitObj → String
  | .blob d => "blob:" ++ d
  | .tree es => "tree:" ++ encEntries es
  | .commit t ps a m =>
      "commit:" ++ toString t.length ++ ":" ++ t ++ "|" ++ encIds ps ++
        "|" ++ toString a.length ++ ":" ++ a ++ "|" ++ m

/-- State of the git backend: the object store (id to object, append
only) and the single head reference. -/
structure GitStore where
  objects : List (String × GitObj)
  headRef : Option String
deriving Repr, DecidableEq

/-- Object store lookup. -/
def objAt (s : GitStore) (i : String) : Option GitObj :=
  (s.objects.find? (fun e => e.fst == i)).map Prod.snd

/-- object_store.add_object: idempotent append keyed by content address. -/
def addObject (s : GitStore) (o : GitObj) : GitStore :=
  if s.objects.any (fun e => e.fst == objId o) then s
  else { s with objects := s.objects ++ [(objId o, o)] }

/-- The entries of the tree object at an id; an id that is absent or
names a non-tree object yields no entries (dulwich would raise there,
and no modelled code path reaches that case with a well formed store). -/
def treeEntriesAt (s : GitStore) (i : String) : List (String × Nat × String) :=
  match objAt s i with
  | some (.tree es) => es
  | _ => []

/-- Entry lookup in a tree entry list, dulwich tree[name]. -/
def entryLookup (es : List (String × Nat × String)) (name : String) :
    Option (Nat × String) :=
  (es.find? (fun e => e.fst == name)).map Prod.snd

/-- tree[name] = value: replace or add.  dulwich keeps entries sorted by
name; entry order is not significant to any modelled observation. -/
def entrySet (es : List (String × Nat × String)) (name : String)
    (v : Nat × String) : List (String × Nat × String) :=
  es.filter (fun e => !(e.fst == name)) ++ [(name, v)]

/-- stat.S_IFREG | 0644. -/
def regFileMode : Nat := 33188

/-- stat.S_IFDIR. -/
def dirMode : Nat := 16384

/-- stat.S_ISDIR. -/
def S_ISDIR (m : Nat) : Bool := m &&& 61440 == 16384

/-- Python str.strip with the slash character set. -/
def stripSlashes (p : String) : String :=
  String.mk
    (((p.toList.dropWhile (· == '/')).reverse.dropWhile (· == '/')).reverse)

/-- posixpath.split: the pair of the part before the last slash and the
part after it.  This returns a two element pair, never the full segment
list. -/
def posixSplit (p : String) : String × String :=
  let parts := splitOnChar '/' p
  if parts.length ≤ 1 then ("", p)
  else (joinSep "/" parts.dropLast, parts.getLastD "")

/-- FileStore._get_root of the git backend, src/wikkid/filestore/git.py
line 46: resolve the requested revision (the head reference when none),
returning (commit id, root tree id), or (none, none) when the lookup
fails as the source catches KeyError. -/
def gitGetRoot (s : GitStore) (revision : Option String) :
    Option String × Option String :=
  let rev := match revision with
    | some r => some r
    | none => s.headRef
  match rev with
  | none => (none, none)
  | some r =>
    match objAt s r with
    | some (.commit t _ _ _) => (some r, some t)
    | _ => (none, none)

/-- dulwich tree_lookup_path: walk the slash separated parts from the
root tree, returning the (mode, id) of the final part. -/
def treeLookupPath (s : GitStore) (rootId : String) (path : String) :
    Option (Nat × String) :=
  let rec go (cur : String) : List String → Option (Nat × String)
    | [] => none
    | [p] => entryLookup (treeEntriesAt s cur) p
    | p :: rest =>
      match entryLookup (treeEntriesAt s cur) p with
      | some (_, sha) => go sha rest
      | none => none
  go rootId (splitOnChar '/' path)

/-- The read-only File projection of the git backend,
src/wikkid/filestore/git.py class File. -/
structure GitFile where
  mode : Nat
  sha : String
  path : String
  commitSha : Option String
deriving Repr, DecidableEq

/-- File.get_content: the blob data, none when the id names a tree. -/
def GitFile.getContent (s : GitStore) (f : GitFile) : Option String :=
  match objAt s f.sha with
  | some (.blob d) => some d
  | _ => none

/-- FileStore.get_file of the git backend, src/wikkid/filestore/git.py
line 57. -/
def gitGetFile (s : GitStore) (path : String) : Option GitFile :=
  match gitGetRoot s none with
  | (commitId, some rootId) =>
    match treeLookupPath s rootId path with
    | some (m, sh) => some ⟨m, sh, path, commitId⟩
    | none => none
  | _ => none

/-- get_file followed by get_content. -/
def gitReadContent (s : GitStore) (p : String) : Option String :=
  match gitGetFile s p with
  | some f => f.getContent s
  | none => none

/-- FileStore.update_file of the git backend, src/wikkid/filestore/git.py
line 69, translated step by step:
elements = posixpath.split(path.strip(slash)) is the two element pair
(head, tail), so the for loop over elements[:-1] runs exactly once with
el = head, and the zip of the reversed singleton trees list with the
reversed pair runs exactly once with name = tail; after that loop the
Python variable name still holds tail, so the root entry written is
named tail.  The blob id is computed with Blob.from_string(content).id
but the blob itself is never passed to add_object.  The commit is
created without setting its parents. -/
def gitUpdateFile (s : GitStore) (path content user : String)
    (parentRev : Option String) (msg : Option String) :
    Except StoreError GitStore :=
  let root := gitGetRoot s parentRev
  let rootEntries := match root.snd with
    | none => []
    | some i => treeEntriesAt s i
  let pq := posixSplit (stripSlashes path)
  let head := pq.fst
  let tail := pq.snd
  let step : Except StoreError (List (String × Nat × String)) :=
    match entryLookup rootEntries head with
    | some (m, sha) =>
      if S_ISDIR m then .ok (treeEntriesAt s sha)
      else .error (.fileExists ("File " ++ head ++
        " exists and is not a directory"))
    | none => .ok []
  match step with
  | .error e => .error e
  | .ok subEntries =>
    if (match entryLookup subEntries tail with
        | some (m, _) => S_ISDIR m
        | none => false) then
      .error (.fileExists ("File " ++ path ++ " exists and is a directory"))
    else
      let blobId := objId (.blob content)
      let sub2 := entrySet subEntries tail (regFileMode, blobId)
      let s1 := addObject s (.tree sub2)
      let subId := objId (.tree sub2)
      let root2 := entrySet rootEntries tail (dirMode, subId)
      let s2 := addObject s1 (.tree root2)
      let rootId2 := objId (.tree root2)
      let c : GitObj := .commit rootId2 [] user (msg.getD "")
      let s3 := addObject s2 c
      .ok { s3 with headRef := some (objId c) }

/-- FileStore.list_directory of the git backend,
src/wikkid/filestore/git.py line 113.  For the root of a store without
any commit the source reaches self.store[None], raising; that is the
internalError case. -/
def gitListDirectory (s : GitStore) (directoryPath : Option String) :
    Except StoreError (Option (List GitFile)) :=
  let dp := match directoryPath with
    | none => ""
    | some p => stripSlashes p
  let root := gitGetRoot s none
  let resolved : Except StoreError (Option (Nat × Option String)) :=
    if dp = "" then .ok (some (dirMode, root.snd))
    else
      match root.snd with
      | none => .ok none
      | some rootId =>
        match treeLookupPath s rootId dp with
        | none => .ok none
        | some (m, sha) => .ok (some (m, some sha))
  match resolved with
  | .error e => .error e
  | .ok none => .ok none
  | .ok (some (m, sha)) =>
    if S_ISDIR m then
      match sha with
      | none => .error (.internalError "object store lookup of None")
      | some shaV =>
        .ok (some ((treeEntriesAt s shaV).map (fun e =>
          ⟨e.snd.fst, e.snd.snd,
            (if dp = "" then e.fst else dp ++ "/" ++ e.fst), root.fst⟩)))
    else .ok none

/-- True exactly on an UpdateConflicts outcome of the bzr backend. -/
def isConflictErr : Option StoreError → Bool
  | some (.updateConflicts _ _) => true
  | _ => false

/-- True exactly on a FileExists outcome of the bzr backend. -/
def isFileExistsErr : Option StoreError → Bool
  | some (.fileExists _) => true
  | _ => false

/-- True exactly on a FileExists outcome of the git backend. -/
def isFileExistsExc : Except StoreError GitStore → Bool
  | .error (.fileExists _) => true
  | _ => false

/-- True on a successful git update. -/
def excIsOk : Except StoreError GitStore → Bool
  | .ok _ => true
  | .error _ => false

/-- Substring containment of needle in hay. -/
def strContainsSub (hay needle : String) : Bool :=
  (List.range (hay.data.length + 1)).any
    (fun i => needle.data.isPrefixOf (hay.data.drop i))

/-- True when an optional node is a present non-directory entry. -/
def isNonDirNode : Option BzrNode → Bool
  | some (.file _ _) => true
  | _ => false

/-- Content of the working tree file at a path. -/
def bzrReadContent (s : BzrStore) (p : String) : Option String :=
  match lookupNode s.tree p with
  | some (.file c _) => some c
  | _ => none

/-- The parents list of the commit the head reference points at. -/
def headCommitParents (s : GitStore) : Option (List String) :=
  match s.headRef with
  | some h =>
    match objAt s h with
    | some (.commit _ ps _ _) => some ps
    | _ => none
  | none => none

/-- Bzr store after the first update of the test_conflicts scenario of
src/wikkid/tests/test_bzr_filestore.py: revision 1 held one line of
content, revision 2 (the head) holds the first rewrite. -/
def bzrNlStore : BzrStore :=
  { tree := [("test.txt", .file "different line\n" 2)],
    snapshots := [(2, [("test.txt", "different line\n")]),
                  (1, [("test.txt", "one line of content\n")])],
    headRev := 2 }

/-- Same scenario with DOS line endings, as in
test_conflicts_dos_line_endings. -/
def bzrDosStore : BzrStore :=
  { tree := [("test.txt", .file "different line\r\n" 2)],
    snapshots := [(2, [("test.txt", "different line\r\n")]),
                  (1, [("test.txt", "one line of content\r\n")])],
    headRev := 2 }

/-- A store whose single file consists of one opening conflict marker
line. -/
def bzrMarkerStore : BzrStore :=
  { tree := [("f", .file "<<<<<<<\n" 1)],
    snapshots := [(1, [("f", "<<<<<<<\n")])],
    headRev := 1 }

/-- The store of test_line_endings_unix_not_normalised: a unix ending
file without trailing newline. -/
def bzrMixedStore : BzrStore :=
  { tree := [("test.txt", .file "several\nlines\nof\ncontent" 1)],
    snapshots := [(1, [("test.txt", "several\nlines\nof\ncontent")])],
    headRev := 1 }

/-- A bzr store whose root entry a is a plain file. -/
def bzrAncestorFileStore : BzrStore :=
  { tree := [("a", .file "afile\n" 1)],
    snapshots := [(1, [("a", "afile\n")])],
    headRev := 1 }

/-- A bzr store with an empty directory e, a populated directory d and a
plain file f. -/
def bzrListingStore : BzrStore :=
  { tree := [("d", .dir 1), ("d/x", .file "1\n" 1), ("e", .dir 1),
             ("f", .file "2\n" 1)],
    snapshots := [], headRev := 1 }

/-- An empty bzr store. -/
def bzrEmptyStore : BzrStore := { tree := [], snapshots := [], headRev := 0 }

/-- A git store with no objects and no head. -/
def gitEmptyStore : GitStore := { objects := [], headRef := none }

/-- The git store after writing path a/b/c into an empty store. -/
def gitAfterABC : GitStore :=
  match gitUpdateFile gitEmptyStore "a/b/c" "hello\n" "u" none none with
  | .ok s => s
  | .error _ => gitEmptyStore

/-- The git store after writing DOS style content to the fresh path f. -/
def gitAfterF : GitStore :=
  match gitUpdateFile gitEmptyStore "f" "x\r\ny" "u" none none with
  | .ok s => s
  | .error _ => gitEmptyStore

/-- A committed git store whose root holds the single plain file a. -/
def gitRootFileStore : GitStore :=
  let b : GitObj := .blob "x"
  let t : GitObj := .tree [("a", (regFileMode, objId b))]
  let c : GitObj := .commit (objId t) [] "u" "m"
  { objects := [(objId b, b), (objId t, t), (objId c, c)],
    headRef := some (objId c) }

/-- The git store after one write of f into an empty store. -/
def gitAfterOne : GitStore :=
  match gitUpdateFile gitEmptyStore "f" "one\n" "u" none none with
  | .ok s => s
  | .error _ => gitEmptyStore

/-- The git store after a second, different write of f. -/
def gitAfterTwo : GitStore :=
  match gitUpdateFile gitAfterOne "f" "two\n" "u" none none with
  | .ok s => s
  | .error _ => gitAfterOne

deriving instance DecidableEq for Except

/-- Any region list containing a conflict renders to lines containing the
closing marker line. -/
theorem mem_render_of_conflict (nl : String) (rs : List MergeRegion)
    (h : rs.any MergeRegion.isConflict = true) :
    (">>>>>>>" ++ nl) ∈ renderRegions nl rs := by
  induction rs with
  | nil => simp at h
  | cons r rest ih =>
    cases r with
    | text ls =>
      have h2 : rest.any MergeRegion.isConflict = true := by
        simpa [MergeRegion.isConflict] using h
      exact List.mem_append_right ls (ih h2)
    | conflict inc loc =>
      simp [renderRegions, List.mem_append, List.mem_cons]

/-- find? after setNode retrieves the written node. -/
theorem find?_setNode (t : List (String × BzrNode)) (p : String)
    (n : BzrNode) :
    (setNode t p n).find? (fun e => e.fst == p) = some (p, n) := by
  unfold setNode
  induction t with
  | nil => simp [List.find?]
  | cons e rest ih =>
    by_cases he : e.fst == p
    · simp only [List.filter_cons, he, Bool.not_true, List.cons_append]
      exact ih
    · simp only [List.filter_cons, he, Bool.not_false, List.cons_append,
        List.find?, he]
      exact ih

/-- Node lookup after setNode retrieves the written node. -/
theorem lookupNode_setNode (t : List (String × BzrNode)) (p : String)
    (n : BzrNode) : lookupNode (setNode t p n) p = some n := by
  simp [lookupNode, find?_setNode]

/-- The ancestor scan succeeds exactly when no checked prefix is an
existing non-directory entry. -/
theorem ensure_findSome_spec (s : BzrStore) (l : List String) :
    (l.findSome? (fun q =>
        match lookupNode s.tree q with
        | some (.file _ _) =>
            some (StoreError.fileExists (q ++ " exists and is not a directory"))
        | _ => none)).isSome
      = l.any (fun q => isNonDirNode (lookupNode s.tree q)) := by
  induction l with
  | nil => simp
  | cons q rest ih =>
    cases hq : lookupNode s.tree q with
    | none => simp [List.findSome?_cons, hq, isNonDirNode, ih]
    | some n =>
      cases n with
      | file c r => simp [List.findSome?_cons, hq, isNonDirNode]
      | dir r => simp [List.findSome?_cons, hq, isNonDirNode, ih]

/-- When the ancestor scan reports an error it is a FileExists. -/
theorem ensure_value_fileExists (s : BzrStore) (l : List String)
    (e : StoreError)
    (h : l.findSome? (fun q =>
        match lookupNode s.tree q with
        | some (.file _ _) =>
            some (StoreError.fileExists (q ++ " exists and is not a directory"))
        | _ => none) = some e) :
    ∃ m, e = .fileExists m := by
  induction l with
  | nil => simp at h
  | cons q rest ih =>
    cases hq : lookupNode s.tree q with
    | none =>
      rw [List.findSome?_cons, hq] at h
      exact ih h
    | some n =>
      cases n with
      | file c r =>
        rw [List.findSome?_cons, hq] at h
        exact ⟨q ++ " exists and is not a directory", by
          cases h; rfl⟩
      | dir r =>
        rw [List.findSome?_cons, hq] at h
        exact ih h

/-- C1: when update_file hits an existing file and the three-way merge of
(basis at parent_revision, incoming caller content, local head content)
produces at least one conflict region, the call raises UpdateConflicts
carrying the fully merged text including the conflict markers and the
revision the file was last modified in at the time of the call, not the
callers stale parent_revision. -/
theorem c1_conflict_raises_with_current_revision
    (s : BzrStore) (path content author : String) (pr : Nat)
    (msg : Option String) (fc bc : String) (fr : Nat)
    (ending newEnding : String) (newLines : List String)
    (h1 : lookupNode s.tree path = some (.file fc fr))
    (h2 : bzrBasisContent s pr path = some bc)
    (h3 : getLineEnding (splitLinesKeep fc) = some ending)
    (h4 : getLineEnding (splitLinesKeep content) = some newEnding)
    (h5 : bzrPreparedNewLines content ending newEnding = some newLines)
    (h6 : (diff3 (splitLinesKeep bc) newLines
            (splitLinesKeep fc)).any MergeRegion.isConflict = true) :
    bzrUpdateFile s path content author (some pr) msg
      = (s, some (.updateConflicts
          (String.join (bzrMergedLines bc fc newLines ending)) fr)) := by
  have hm : (">>>>>>>" ++ ending) ∈ bzrMergedLines bc fc newLines ending := by
    unfold bzrMergedLines
    exact mem_render_of_conflict ending _ h6
  simp only [bzrUpdateFile, bzrUpdateExisting, bzrUpdateDecision, h1, h2,
    h3, h4, h5]
  rw [if_pos hm]

/-- Witness for C1 at the test_conflicts scenario of the test suite. -/
theorem c1_witness :
    bzrUpdateFile bzrNlStore "test.txt" "also change the first line\n" "u"
        (some 1) none
      = (bzrNlStore, some (.updateConflicts
          "<<<<<<<\nalso change the first line\n=======\ndifferent line\n>>>>>>>\n"
          2)) := by
  have h := c1_conflict_raises_with_current_revision bzrNlStore "test.txt"
    "also change the first line\n" "u" 1 none "different line\n"
    "one line of content\n" 2 "\n" "\n" ["also change the first line\n"]
    (by decide) (by decide) (by decide) (by decide) (by decide) (by decide)
  exact h.trans (by decide)

/-- C10: when update_file on an existing file raises UpdateConflicts the
store is unchanged: the raise happens before any write or commit, so the
working tree, the snapshots and the head revision are exactly those
before the call. -/
theorem c10_conflict_leaves_state_unchanged
    (s : BzrStore) (path content author : String) (pr : Option Nat)
    (msg : Option String) (c : String) (rev : Nat)
    (h : (bzrUpdateFile s path content author pr msg).snd
        = some (.updateConflicts c rev)) :
    (bzrUpdateFile s path content author pr msg).fst = s := by
  unfold bzrUpdateFile at h ⊢
  cases hl : lookupNode s.tree path with
  | none =>
    rw [hl] at h
    show (bzrAddFile s path content).1 = s
    simp only [bzrAddFile] at h ⊢
    cases he : ensureDirOrAbsent s (dirname path) with
    | none => rw [he] at h; simp at h
    | some e => rfl
  | some n =>
    cases n with
    | dir r => rfl
    | file fc fr =>
      rw [hl] at h
      show (bzrUpdateExisting s path content fc fr pr).1 = s
      simp only [bzrUpdateExisting] at h ⊢
      cases hd : bzrUpdateDecision s path content fc fr pr with
      | error e => rfl
      | ok nc => rw [hd] at h; simp [bzrCommitWrite] at h

/-- Witness for C10 at the DOS variant of the conflict scenario. -/
theorem c10_witness :
    (bzrUpdateFile bzrDosStore "test.txt" "also change the first line\r\n"
        "u" (some 1) none).fst = bzrDosStore := by
  exact c10_conflict_leaves_state_unchanged bzrDosStore "test.txt"
    "also change the first line\r\n" "u" (some 1) none
    "<<<<<<<\r\nalso change the first line\r\n=======\r\ndifferent line\r\n>>>>>>>\r\n"
    2 (by decide)

/-- C2: writing the multi-segment path a/b/c into an empty git store does
not create the a/b chain at all.  posixpath.split returns only the
(dirname, basename) pair, so the tree builder looks up a/b as a single
entry name, synthesizes an empty tree in its place and finally installs
the root entry under the basename: the update succeeds, yet neither the
leaf a/b/c nor the ancestor a resolves afterwards, and the root instead
carries a directory entry named c. -/
theorem c2_multisegment_path_broken :
    excIsOk (gitUpdateFile gitEmptyStore "a/b/c" "hello\n" "u" none none)
        = true
    ∧ gitGetFile gitAfterABC "a/b/c" = none
    ∧ gitGetFile gitAfterABC "a" = none
    ∧ (gitGetFile gitAfterABC "c").map (fun f => S_ISDIR f.mode)
        = some true := by decide

/-- C3 counterexample: the claim ties conflict detection to the opening
marker anywhere in the merged output.  Updating a file whose single line
is the opening marker line, with identical basis, local and incoming
content, yields merged output that contains the opening marker followed
by the line ending, yet the call succeeds without raising. -/
theorem c3_counterexample_opening_marker_no_raise :
    (bzrUpdateFile bzrMarkerStore "f" "<<<<<<<\n" "u" (some 1) none).snd = none
    ∧ strContainsSub
        (String.join (bzrMergedLines "<<<<<<<\n" "<<<<<<<\n" ["<<<<<<<\n"]
          "\n"))
        ("<<<<<<<" ++ "\n") = true := by decide

/-- C3 amended: for an existing text file the update raises
UpdateConflicts exactly when the merged lines contain, as a whole line,
the closing marker followed by the line ending in use. -/
theorem c3_conflict_iff_closing_marker_line
    (s : BzrStore) (path content author : String) (pr : Nat)
    (msg : Option String) (fc bc : String) (fr : Nat)
    (ending newEnding : String) (newLines : List String)
    (h1 : lookupNode s.tree path = some (.file fc fr))
    (h2 : bzrBasisContent s pr path = some bc)
    (h3 : getLineEnding (splitLinesKeep fc) = some ending)
    (h4 : getLineEnding (splitLinesKeep content) = some newEnding)
    (h5 : bzrPreparedNewLines content ending newEnding = some newLines) :
    isConflictErr (bzrUpdateFile s path content author (some pr) msg).snd
        = true
      ↔ (">>>>>>>" ++ ending) ∈ bzrMergedLines bc fc newLines ending := by
  simp only [bzrUpdateFile, bzrUpdateExisting, bzrUpdateDecision, h1, h2,
    h3, h4, h5]
  by_cases hin : (">>>>>>>" ++ ending) ∈ bzrMergedLines bc fc newLines ending
  · simp [hin, isConflictErr]
  · simp [hin, isConflictErr, bzrCommitWrite]

/-- Witness for C3 at the test_conflicts scenario. -/
theorem c3_witness :
    isConflictErr (bzrUpdateFile bzrNlStore "test.txt"
        "also change the first line\n" "u" (some 1) none).snd = true := by
  exact (c3_conflict_iff_closing_marker_line bzrNlStore "test.txt"
    "also change the first line\n" "u" 1 none "different line\n"
    "one line of content\n" 2 "\n" "\n" ["also change the first line\n"]
    (by decide) (by decide) (by decide) (by decide) (by decide)).mpr
    (by decide)

/-- C4: a conflict region renders as the standard markers enclosing first
the incoming hunk and then the local hunk, and update_file on an
existing file computes its outcome from the merge of basis content at
parent_revision, incoming caller content and local content at the
current head, in that role assignment. -/
theorem c4_merge_roles_and_marker_order
    (s : BzrStore) (path content author : String) (pr : Nat)
    (msg : Option String) (fc bc : String) (fr : Nat)
    (ending newEnding : String) (newLines : List String)
    (inc loc : List String) (rest : List MergeRegion)
    (h1 : lookupNode s.tree path = some (.file fc fr))
    (h2 : bzrBasisContent s pr path = some bc)
    (h3 : getLineEnding (splitLinesKeep fc) = some ending)
    (h4 : getLineEnding (splitLinesKeep content) = some newEnding)
    (h5 : bzrPreparedNewLines content ending newEnding = some newLines) :
    renderRegions ending (MergeRegion.conflict inc loc :: rest)
      = ("<<<<<<<" ++ ending) ::
          (inc ++ ("=======" ++ ending) ::
            (loc ++ ((">>>>>>>" ++ ending) :: renderRegions ending rest)))
    ∧ bzrUpdateFile s path content author (some pr) msg
        = (if (">>>>>>>" ++ ending) ∈ bzrMergedLines bc fc newLines ending
           then (s, some (.updateConflicts
              (String.join (bzrMergedLines bc fc newLines ending)) fr))
           else bzrCommitWrite s path
              (String.join (bzrMergedLines bc fc newLines ending))) := by
  constructor
  · rfl
  · simp only [bzrUpdateFile, bzrUpdateExisting, bzrUpdateDecision, h1, h2,
      h3, h4, h5]
    by_cases hin : (">>>>>>>" ++ ending)
        ∈ bzrMergedLines bc fc newLines ending
    · rw [if_pos hin, if_pos hin]
    · rw [if_neg hin, if_neg hin]

/-- Witness for C4 at the DOS conflict scenario, showing the DOS style
markers and the incoming before local order. -/
theorem c4_witness :
    bzrUpdateFile bzrDosStore "test.txt" "also change the first line\r\n"
        "u" (some 1) none
      = (bzrDosStore, some (.updateConflicts
          "<<<<<<<\r\nalso change the first line\r\n=======\r\ndifferent line\r\n>>>>>>>\r\n"
          2))
    ∧ renderRegions "\r\n" [MergeRegion.conflict ["inc\r\n"] ["loc\r\n"]]
      = ["<<<<<<<\r\n", "inc\r\n", "=======\r\n", "loc\r\n", ">>>>>>>\r\n"] := by
  have h := c4_merge_roles_and_marker_order bzrDosStore "test.txt"
    "also change the first line\r\n" "u" 1 none "different line\r\n"
    "one line of content\r\n" 2 "\r\n" "\r\n"
    ["also change the first line\r\n"] ["inc\r\n"] ["loc\r\n"] []
    (by decide) (by decide) (by decide) (by decide) (by decide)
  exact ⟨h.2.trans (by decide), h.1.trans (by decide)⟩

/-- C5 counterexample: the git backend commits the caller content without
any normalisation, and in fact never adds the blob to the object store:
after writing DOS style content to a fresh path the store holds neither
the normalised blob nor the verbatim blob, and reading the path back
does not return the normalised content. -/
theorem c5_counterexample_git_verbatim :
    excIsOk (gitUpdateFile gitEmptyStore "f" "x\r\ny" "u" none none) = true
    ∧ gitAfterF.objects.any (fun e => e.snd == GitObj.blob "x\ny\n") = false
    ∧ gitAfterF.objects.any (fun e => e.snd == GitObj.blob "x\r\ny") = false
    ∧ gitReadContent gitAfterF "f" = none := by decide

/-- C5 amended: in the bzr backend, update_file on a path that does not
exist normalises the content (line endings to LF, trailing newline
enforced), ignores parent_revision entirely, commits, and reading the
path back returns exactly the normalised content. -/
theorem c5_new_path_normalized_bzr
    (s : BzrStore) (path content author author2 : String)
    (pr pr2 : Option Nat) (msg msg2 : Option String)
    (hnew : lookupNode s.tree path = none)
    (hok : ensureDirOrAbsent s (dirname path) = none) :
    bzrUpdateFile s path content author pr msg
      = bzrUpdateFile s path content author2 pr2 msg2
    ∧ (bzrUpdateFile s path content author pr msg).snd = none
    ∧ bzrGetFile (bzrUpdateFile s path content author pr msg).fst path
        = some ⟨path, false, s.headRev + 1,
            some (bzrNormalizedNewContent content)⟩ := by
  refine ⟨?_, ?_, ?_⟩
  · simp only [bzrUpdateFile, hnew]
  · simp only [bzrUpdateFile, hnew, bzrAddFile, hok]
  · simp only [bzrUpdateFile, hnew, bzrAddFile, hok, bzrGetFile]
    rw [lookupNode_setNode]

/-- Witness for C5 with a nested fresh path and DOS content. -/
theorem c5_witness :
    bzrUpdateFile bzrEmptyStore "d/e" "x\r\ny" "u" none none
      = bzrUpdateFile bzrEmptyStore "d/e" "x\r\ny" "v" (some 7) (some "m")
    ∧ (bzrUpdateFile bzrEmptyStore "d/e" "x\r\ny" "u" none none).snd = none
    ∧ bzrGetFile (bzrUpdateFile bzrEmptyStore "d/e" "x\r\ny" "u"
        none none).fst "d/e"
      = some ⟨"d/e", false, 1, some "x\ny\n"⟩ := by
  have h := c5_new_path_normalized_bzr bzrEmptyStore "d/e" "x\r\ny" "u" "v"
    none (some 7) none (some "m") (by decide) (by decide)
  exact ⟨h.1, h.2.1, h.2.2.trans (by decide)⟩

/-- C6 counterexample: in the git backend, creating a file at a/b/c when
a already exists as a plain file raises nothing: posixpath.split makes
the ancestor check look up the single name a/b, which is absent, so the
call succeeds instead of raising FileExists. -/
theorem c6_counterexample_git_deep_path_no_fileexists :
    isFileExistsExc (gitUpdateFile gitRootFileStore "a/b/c" "hi\n" "u"
        none none) = false
    ∧ excIsOk (gitUpdateFile gitRootFileStore "a/b/c" "hi\n" "u" none none)
        = true := by decide

/-- C6 amended: in the bzr backend, update_file on a path that does not
yet exist raises FileExists exactly when some ancestor prefix of the
path exists as a non-directory entry. -/
theorem c6_fileexists_iff_ancestor_nondir_bzr
    (s : BzrStore) (path content author : String) (pr : Option Nat)
    (msg : Option String)
    (hnew : lookupNode s.tree path = none) :
    isFileExistsErr (bzrUpdateFile s path content author pr msg).snd = true
      ↔ (initPrefixes (dirname path)).any
          (fun q => isNonDirNode (lookupNode s.tree q)) = true := by
  simp only [bzrUpdateFile, hnew, bzrAddFile]
  cases he : ensureDirOrAbsent s (dirname path) with
  | none =>
    have hs := ensure_findSome_spec s (initPrefixes (dirname path))
    unfold ensureDirOrAbsent at he
    rw [he] at hs
    simp only [Option.isSome_none] at hs
    simp [isFileExistsErr, ← hs]
  | some e =>
    have hs := ensure_findSome_spec s (initPrefixes (dirname path))
    unfold ensureDirOrAbsent at he
    rw [he] at hs
    obtain ⟨m, rfl⟩ := ensure_value_fileExists s _ e he
    simp only [Option.isSome_some] at hs
    simp [isFileExistsErr, ← hs]

/-- Witness for C6: a nested path below an existing plain file raises
FileExists in the bzr backend. -/
theorem c6_witness :
    isFileExistsErr (bzrUpdateFile bzrAncestorFileStore "a/b/c" "hi\n" "u"
        none none).snd = true := by
  exact (c6_fileexists_iff_ancestor_nondir_bzr bzrAncestorFileStore "a/b/c"
    "hi\n" "u" none none (by decide)).mpr (by decide)

/-- C7 counterexample: in the git backend, listing the root of a store
without any commit neither returns none nor a sequence: the source
reaches self.store[None] and raises. -/
theorem c7_counterexample_git_empty_store_root :
    gitListDirectory gitEmptyStore none
      = .error (.internalError "object store lookup of None") := by decide

/-- C7 amended, bzr backend: list_directory returns none when the path is
absent or resolves to a non-directory, returns the empty sequence when
the directory exists but has no entries, lists the root for a none
path, and only ever lists immediate children of the requested
directory. -/
theorem c7_list_directory_contract_bzr
    (s : BzrStore) (p : String) (f : BzrFile) (l : List BzrFile)
    (g : BzrFile) :
    (bzrGetFile s p = none → bzrListDirectory s (some p) = none)
    ∧ (bzrGetFile s p = some f → f.isDir = false →
        bzrListDirectory s (some p) = none)
    ∧ (bzrGetFile s p = some f → f.isDir = true →
        s.tree.all (fun e => !(isImmediateChild (some p) e.fst)) = true →
        bzrListDirectory s (some p) = some [])
    ∧ bzrListDirectory s none = some (levelListing s none)
    ∧ (bzrListDirectory s (some p) = some l → g ∈ l →
        dirname g.path = p) := by
  refine ⟨?_, ?_, ?_, rfl, ?_⟩
  · intro h
    simp [bzrListDirectory, h]
  · intro h hd
    simp [bzrListDirectory, h, hd]
  · intro h hd hall
    have hfil : s.tree.filter (fun e => isImmediateChild (some p) e.fst)
        = [] := by
      rw [List.filter_eq_nil_iff]
      intro e he
      have := List.all_eq_true.mp hall e he
      simpa using this
    simp [bzrListDirectory, h, hd, levelListing, hfil]
  · intro hl hg
    have hlev : l = levelListing s (some p) := by
      simp only [bzrListDirectory] at hl
      cases hf : bzrGetFile s p with
      | none => rw [hf] at hl; simp at hl
      | some f2 =>
        rw [hf] at hl
        have hl2 : (if f2.isDir = true then some (levelListing s (some p))
            else none) = some l := hl
        by_cases hd : f2.isDir
        · rw [if_pos hd] at hl2
          exact (Option.some_inj.mp hl2).symm
        · rw [if_neg hd] at hl2; simp at hl2
    rw [hlev] at hg
    unfold levelListing at hg
    obtain ⟨e, he, hge⟩ := List.mem_filterMap.mp hg
    obtain ⟨hmem, hchild⟩ := List.mem_filter.mp he
    have hpath : g.path = e.fst := by
      unfold bzrGetFile at hge
      cases hn : lookupNode s.tree e.fst with
      | none => rw [hn] at hge; simp at hge
      | some n =>
        rw [hn] at hge
        cases n with
        | file c r =>
          obtain rfl : (⟨e.fst, false, r, some c⟩ : BzrFile) = g := by
            simpa using hge
          rfl
        | dir r =>
          obtain rfl : (⟨e.fst, true, r, none⟩ : BzrFile) = g := by
            simpa using hge
          rfl
    rw [hpath]
    have hbeq : (dirname e.fst == p) = true := by
      simpa [isImmediateChild] using hchild
    exact eq_of_beq hbeq

/-- Witness for C7: an empty directory lists as the empty sequence, a
missing path and a plain file list as none. -/
theorem c7_witness :
    bzrListDirectory bzrListingStore (some "e") = some []
    ∧ bzrListDirectory bzrListingStore (some "zzz") = none
    ∧ bzrListDirectory bzrListingStore (some "f") = none := by
  refine ⟨?_, ?_, ?_⟩
  · exact (c7_list_directory_contract_bzr bzrListingStore "e"
      ⟨"e", true, 1, none⟩ [] ⟨"e", true, 1, none⟩).2.2.1 (by decide)
      (by decide) (by decide)
  · exact (c7_list_directory_contract_bzr bzrListingStore "zzz"
      ⟨"e", true, 1, none⟩ [] ⟨"e", true, 1, none⟩).1 (by decide)
  · exact (c7_list_directory_contract_bzr bzrListingStore "f"
      ⟨"f", false, 1, some "2\n"⟩ [] ⟨"f", false, 1, some "2\n"⟩).2.1
      (by decide) (by decide)

/-- C8: the bzr backend re-normalises incoming content to the existing
line ending style of the file unconditionally: update_file accepts no
option for it, and the test suite scenario that posts DOS content onto a
unix file without requesting normalisation ends with the normalised
content committed, not the verbatim posted content the tests expect. -/
theorem c8_incoming_normalized_unconditionally :
    (bzrUpdateFile bzrMixedStore "test.txt"
        "several\r\nslightly different lines\r\nof\r\ncontent" "u" (some 1)
        none).snd = none
    ∧ bzrReadContent (bzrUpdateFile bzrMixedStore "test.txt"
        "several\r\nslightly different lines\r\nof\r\ncontent" "u" (some 1)
        none).fst "test.txt"
      = some "several\nslightly different lines\nof\ncontent\n"
    ∧ some "several\nslightly different lines\nof\ncontent\n"
        ≠ some "several\r\nslightly different lines\r\nof\r\ncontent" := by
  refine ⟨by decide, by decide, by decide⟩

/-- C9: in the git backend every successful update_file advances the head
to the freshly created commit, but that commit records no parent at
all: after two successive writes the head has moved to a second,
different commit whose parents list is empty rather than naming the
previous head. -/
theorem c9_head_advances_to_parentless_commit :
    gitAfterOne.headRef.isSome = true
    ∧ gitAfterTwo.headRef.isSome = true
    ∧ gitAfterTwo.headRef ≠ gitAfterOne.headRef
    ∧ headCommitParents gitAfterTwo = some [] := by decide
